import Mathlib

/-!
Verification of the inventory consistency engine of the handcraft_app backend
(FastAPI + SQLAlchemy + PostgreSQL stored functions).

The data model is embedded from `backend/app/models.py`, request/response
shapes from `backend/app/schemas.py`, and the operations from
`backend/app/services.py` and the routers.  Several core operations are
implemented in the repository as PostgreSQL stored functions whose SQL source
is not part of the tree (`build_product`, `record_sale`,
`calculate_part_unit_cost_from_recent_purchases`), and some service functions
invoked by the routers are absent from `app/services.py`
(`adjust_part_inventory`, `update_order_status`, `return_order`).  Those are
modelled from the specification, as flagged in their doc comments.

Monetary values (SQL NUMERIC) are modelled as rationals, product quantities
(SQL Integer) as integers, and part stock as a rational (recipe lines carry
NUMERIC(12,4) quantities, so the amount consumed by a build can be
fractional).
-/

namespace Handcraft

/-- Embeds `models.Part` (`backend/app/models.py`), keeping the columns the
inventory engine reads or writes: primary key, tenant, `stock` and
`unit_cost`.  The check constraints `stock >= 0` and `unit_cost >= 0` are
stated separately as invariants. -/
structure Part where
  part_id : Nat
  org_id : Nat
  stock : ℚ
  unit_cost : ℚ
  deriving Repr, DecidableEq

/-- Embeds `models.Product` (`backend/app/models.py`) with every column that
`schemas.ProductUpdate` can touch plus the derived columns `quantity` and
`total_cost`.  `total_cost` is a nullable column in the model, hence
`Option`. -/
structure Product where
  product_id : Nat
  org_id : Nat
  name : String
  description : Option String
  primary_color : Option String
  secondary_color : Option String
  product_subtype_id : Option Nat
  status : List String
  is_self_made : Bool
  difficulty : String
  quantity : Int
  alert_quantity : Int
  total_cost : Option ℚ
  image_url : Option String
  notes : Option String
  deriving Repr, DecidableEq

/-- Embeds `models.RecipeLine`: composite key (product_id, part_id), a
positive NUMERIC quantity and a server-set creation timestamp (modelled as a
number so that in-place updates are observable). -/
structure RecipeLine where
  product_id : Nat
  part_id : Nat
  quantity : ℚ
  created_at : Nat
  deriving Repr, DecidableEq

/-- Embeds `models.PartTransaction`: an append-only record of a part-stock
change, `txn_type` one of build_product, loss, purchase. -/
structure PartTransaction where
  part_id : Nat
  txn_type : String
  qty : ℚ
  unit_price_for_purchase : ℚ
  product_txn_id : Option Nat
  notes : Option String
  deriving Repr, DecidableEq

/-- Embeds `models.ProductTransaction`: an append-only record of a
product-quantity change, `txn_type` one of build_product, loss, sale, with
price and cost snapshots. -/
structure ProductTransaction where
  txn_id : Nat
  org_id : Nat
  txn_type : String
  product_id : Nat
  qty : Int
  unit_price_for_sale : ℚ
  unit_cost_at_sale : ℚ
  notes : Option String
  deriving Repr, DecidableEq

/-- Embeds the record that `services.adjust_product_inventory` constructs
(named `InventoryTransaction` in `services.py`; `models.py` defines no such
class — see the module-consistency facts below). -/
structure InventoryTransaction where
  org_id : Nat
  txn_type : String
  product_id : Nat
  qty : Int
  notes : Option String
  deriving Repr, DecidableEq

/-- Embeds `models.Order`, keeping the columns the status endpoints touch. -/
structure Order where
  order_id : Nat
  org_id : Nat
  status : String
  total_price : ℚ
  notes : Option String
  deriving Repr, DecidableEq

/-- The Ledger Store state: the rows of the tables the inventory engine
reads and writes.  Transaction lists are kept most-recent-first (a prepend
models an insert with a fresh, latest timestamp). -/
structure AppState where
  parts : List Part
  products : List Product
  recipes : List RecipeLine
  partTxns : List PartTransaction
  productTxns : List ProductTransaction
  invTxns : List InventoryTransaction
  deriving Repr, DecidableEq

/-- The error taxonomy of the spec (§7) together with the ValueError
categories raised by `services.py` (each constructor corresponds to one
distinct error message in the source). -/
inductive InvError where
  | notFound
  | noRecipe
  | insufficientInventory
  | invalidTxnType
  | zeroQuantity
  | purchaseQtyNotPositive
  | nonPositiveQty
  | missingCost
  | invalidTransition (src : String) (dst : String)
  | returnNotShipped
  | partNotFound (part_id : Nat)
  | crossTenant (part_id : Nat)
  deriving Repr, DecidableEq

/-- `db.query(Part).filter(Part.part_id == part_id).first()`. -/
def findPart (st : AppState) (part_id : Nat) : Option Part :=
  st.parts.find? (fun p => p.part_id == part_id)

/-- `db.query(Product).filter(Product.product_id == product_id).first()`. -/
def findProduct (st : AppState) (product_id : Nat) : Option Product :=
  st.products.find? (fun p => p.product_id == product_id)

/-- The recipe lines of one product:
`db.query(RecipeLine).filter(RecipeLine.product_id == product_id)`. -/
def recipeFor (st : AppState) (product_id : Nat) : List RecipeLine :=
  st.recipes.filter (fun l => l.product_id == product_id)

/-- The current stock of a part as read by the build's stock check (0 for a
dangling part reference). -/
def partStock (st : AppState) (part_id : Nat) : ℚ :=
  ((findPart st part_id).map Part.stock).getD 0

/-- The current unit cost of a part (0 for a dangling reference). -/
def partCost (st : AppState) (part_id : Nat) : ℚ :=
  ((findPart st part_id).map Part.unit_cost).getD 0

/-- The amount of a given part one build consumes: the product's recipe has
at most one line per part (composite primary key), so this is that line's
`quantity × build_qty`, or 0 when the part is not in the recipe. -/
def requiredQty (lines : List RecipeLine) (build_qty : Int) (part_id : Nat) : ℚ :=
  match lines.find? (fun l => l.part_id == part_id) with
  | some l => l.quantity * (build_qty : ℚ)
  | none => 0

/-- Modelled from the spec (§4.1 Costing Engine): the per-unit build cost,
`Σ line.quantity × part.unit_cost` over the recipe lines, using the part
costs read before any mutation. -/
def compute_build_unit_cost (st : AppState) (lines : List RecipeLine) : ℚ :=
  (lines.map (fun l => l.quantity * partCost st l.part_id)).sum

/-- The PartTransaction recorded for one recipe line of a build (type
build_product, qty = the consumed amount, back-reference to the product
transaction). -/
def buildPartTxn (st : AppState) (ptxn_id : Nat) (build_qty : Int)
    (l : RecipeLine) : PartTransaction :=
  { part_id := l.part_id, txn_type := "build_product",
    qty := l.quantity * (build_qty : ℚ),
    unit_price_for_purchase := partCost st l.part_id,
    product_txn_id := some ptxn_id, notes := none }

/-- Modelled from the spec: the PostgreSQL stored function `build_product`
invoked by `services.build_product` (`SELECT build_product(:product_id,
:build_qty)`) is not in the source tree.  Per §4.2: load the product
(NotFound), load its recipe (NoRecipe if empty), check every line's stock
against `line.quantity × build_qty` (InsufficientInventory if ANY line is
short, rejecting the whole operation), and only then decrement each part's
stock by its required amount, record one PartTransaction per line sharing
the new product transaction id, compute the blended unit cost from the
costs read before mutation, increment the product quantity and set its
`total_cost`.  `build_qty > 0` is enforced upstream by
`schemas.BuildProductRequest` (`Field(gt=0)`). -/
def build_product (st : AppState) (product_id : Nat) (build_qty : Int) :
    Except InvError AppState :=
  if build_qty ≤ 0 then .error .nonPositiveQty
  else
    match findProduct st product_id with
    | none => .error .notFound
    | some product =>
      let lines := recipeFor st product_id
      if lines.isEmpty then .error .noRecipe
      else if lines.any (fun l => decide (partStock st l.part_id < l.quantity * (build_qty : ℚ)))
      then .error .insufficientInventory
      else
        let unit_cost := compute_build_unit_cost st lines
        let ptxn_id := st.productTxns.length
        let ptxn : ProductTransaction :=
          { txn_id := ptxn_id, org_id := product.org_id, txn_type := "build_product",
            product_id := product_id, qty := build_qty, unit_price_for_sale := 0,
            unit_cost_at_sale := unit_cost, notes := none }
        .ok { st with
          parts := st.parts.map (fun p =>
            { p with stock := p.stock - requiredQty lines build_qty p.part_id }),
          products := st.products.map (fun pr =>
            if pr.product_id == product_id then
              { pr with quantity := pr.quantity + build_qty, total_cost := some unit_cost }
            else pr),
          partTxns := (lines.map (buildPartTxn st ptxn_id build_qty)) ++ st.partTxns,
          productTxns := ptxn :: st.productTxns }

/-- Modelled from the spec: `services.adjust_part_inventory` is invoked by
the parts router (`POST /parts/part_id/inventory`) but is defined nowhere
under src.  Per §4.2 adjust_part: both types require `qty > 0` (also
`schemas.PartInventoryAdjustmentRequest` declares `qty` with `gt=0`);
`purchase` adds `qty` to stock and sets the unit cost to the weighted
average of existing stock at the old cost and the incoming quantity at the
purchase cost, guarding the division by zero when stock was 0; the cost may
be given per-unit or as a total to divide by `qty`, chosen by `cost_type`;
`loss` fails InsufficientInventory when `stock - qty < 0` and leaves the
unit cost unchanged.  One PartTransaction is recorded; the new stock and
unit cost are returned. -/
def adjust_part_inventory (st : AppState) (part_id : Nat) (txn_type : String)
    (qty : Int) (unit_cost : Option ℚ) (total_cost : Option ℚ)
    (cost_type : String) (notes : Option String) :
    Except InvError (AppState × ℚ × ℚ) :=
  if qty ≤ 0 then .error .nonPositiveQty
  else
    match findPart st part_id with
    | none => .error .notFound
    | some part =>
      if txn_type = "purchase" then
        match (if cost_type = "total" then total_cost.map (fun t => t / (qty : ℚ))
               else unit_cost) with
        | none => .error .missingCost
        | some purchase_cost =>
          let new_stock := part.stock + (qty : ℚ)
          let new_unit_cost :=
            if part.stock = 0 then purchase_cost
            else (part.stock * part.unit_cost + (qty : ℚ) * purchase_cost) /
              (part.stock + (qty : ℚ))
          let txn : PartTransaction :=
            { part_id := part_id, txn_type := "purchase", qty := (qty : ℚ),
              unit_price_for_purchase := purchase_cost, product_txn_id := none,
              notes := notes }
          .ok ({ st with
            parts := st.parts.map (fun p =>
              if p.part_id == part_id then
                { p with stock := new_stock, unit_cost := new_unit_cost }
              else p),
            partTxns := txn :: st.partTxns }, new_stock, new_unit_cost)
      else if txn_type = "loss" then
        if part.stock - (qty : ℚ) < 0 then .error .insufficientInventory
        else
          let new_stock := part.stock - (qty : ℚ)
          let txn : PartTransaction :=
            { part_id := part_id, txn_type := "loss", qty := (qty : ℚ),
              unit_price_for_purchase := 0, product_txn_id := none, notes := notes }
          .ok ({ st with
            parts := st.parts.map (fun p =>
              if p.part_id == part_id then { p with stock := new_stock } else p),
            partTxns := txn :: st.partTxns }, new_stock, part.unit_cost)
      else .error .invalidTxnType

/-- Embeds `services.adjust_product_inventory` (`backend/app/services.py`
lines 172-246), translated line by line: validate the transaction type
against `valid_types = ['adjustment', 'purchase']`, reject a zero quantity,
reject a non-positive purchase quantity, load the product (ValueError "not
found" if absent), compute `new_quantity = product.quantity + qty` and
reject if negative ("Insufficient inventory"), else record one
InventoryTransaction and set the product's quantity.  The `qty` parameter
is an integer (`schemas.ProductInventoryAdjustmentRequest` declares
`qty: int`; the service truncates via `int(qty_decimal)`). -/
def adjust_product_inventory (st : AppState) (product_id : Nat)
    (txn_type : String) (qty : Int) (notes : Option String) :
    Except InvError AppState :=
  if txn_type ∉ ["adjustment", "purchase"] then .error .invalidTxnType
  else if qty = 0 then .error .zeroQuantity
  else if txn_type = "purchase" ∧ qty ≤ 0 then .error .purchaseQtyNotPositive
  else
    match findProduct st product_id with
    | none => .error .notFound
    | some product =>
      let new_quantity := product.quantity + qty
      if new_quantity < 0 then .error .insufficientInventory
      else
        let txn : InventoryTransaction :=
          { org_id := product.org_id, txn_type := txn_type,
            product_id := product_id, qty := qty, notes := notes }
        .ok { st with
          products := st.products.map (fun p =>
            if p.product_id == product_id then { p with quantity := new_quantity }
            else p),
          invTxns := txn :: st.invTxns }

/-- Modelled from the spec: the PostgreSQL stored function `record_sale`
invoked by `services.record_sale` (`SELECT record_sale(:product_id,
:quantity, :unit_price, :notes)`) is not in the source tree.  Per §4.2:
load the product (NotFound), fail InsufficientInventory when
`product.quantity < quantity`, decrement the quantity, and snapshot
`unit_cost_at_sale = product.total_cost` and `unit_price_for_sale` into a
new ProductTransaction of type sale (0 when the product has never been
built and `total_cost` is NULL).  `quantity > 0` is enforced upstream by
`schemas.SaleCreate` (`Field(gt=0)`). -/
def record_sale (st : AppState) (product_id : Nat) (quantity : Int)
    (unit_price : ℚ) (notes : Option String) :
    Except InvError (AppState × ProductTransaction) :=
  if quantity ≤ 0 then .error .nonPositiveQty
  else
    match findProduct st product_id with
    | none => .error .notFound
    | some product =>
      if product.quantity < quantity then .error .insufficientInventory
      else
        let txn : ProductTransaction :=
          { txn_id := st.productTxns.length, org_id := product.org_id,
            txn_type := "sale", product_id := product_id, qty := quantity,
            unit_price_for_sale := unit_price,
            unit_cost_at_sale := product.total_cost.getD 0, notes := notes }
        .ok ({ st with
          products := st.products.map (fun p =>
            if p.product_id == product_id then
              { p with quantity := p.quantity - quantity }
            else p),
          productTxns := txn :: st.productTxns }, txn)

/-- Modelled from the spec (§4.1): the walk of the PostgreSQL function
`calculate_part_unit_cost_from_recent_purchases` (not in the source tree)
over a part's purchase transactions, most recent first: accumulate quantity
until the requested amount is covered, returning the accumulated cost and
the covered quantity. -/
def fifoWalk : List PartTransaction → ℚ → ℚ × ℚ
  | [], _ => (0, 0)
  | t :: ts, needed =>
    if needed ≤ 0 then (0, 0)
    else
      let take := min t.qty needed
      let rest := fifoWalk ts (needed - take)
      (rest.1 + take * t.unit_price_for_purchase, rest.2 + take)

/-- A part's purchase-type transactions, most recent first. -/
def purchaseTxnsFor (st : AppState) (part_id : Nat) : List PartTransaction :=
  st.partTxns.filter (fun t => t.part_id == part_id && t.txn_type == "purchase")

/-- Modelled from the spec (§4.1 `compute_fifo_cost`): the quantity-weighted
average unit price across the walked recent purchases, falling back to the
part's current `unit_cost` for any uncovered remainder (never fails).  A
pure read: takes the state and returns a number. -/
def compute_fifo_cost (st : AppState) (part : Part) (quantity : ℚ) : ℚ :=
  let walked := fifoWalk (purchaseTxnsFor st part.part_id) quantity
  (walked.1 + (quantity - walked.2) * part.unit_cost) / quantity

/-- Embeds `schemas.PartFIFOCostResponse`. -/
structure PartFIFOCostResponse where
  part_id : Nat
  quantity : ℚ
  fifo_unit_cost : ℚ
  historical_average_cost : ℚ
  deriving Repr, DecidableEq

/-- Embeds `get_part_fifo_cost` (`backend/app/routers/parts.py` lines
37-71): `quantity` must be positive (`Query(..., gt=0)`), the part must
exist (404), then the FIFO estimate is computed (spec-modelled above) and
returned next to the part's current `unit_cost` as
`historical_average_cost`.  The handler issues only reads; the state is
returned unchanged alongside the response. -/
def get_part_fifo_cost (st : AppState) (part_id : Nat) (quantity : ℚ) :
    Except InvError (PartFIFOCostResponse × AppState) :=
  if quantity ≤ 0 then .error .nonPositiveQty
  else
    match findPart st part_id with
    | none => .error .notFound
    | some part =>
      .ok ({ part_id := part_id, quantity := quantity,
             fifo_unit_cost := compute_fifo_cost st part quantity,
             historical_average_cost := part.unit_cost }, st)

/-- Embeds `schemas.ProductUpdate` (`backend/app/schemas.py` lines 125-139):
the optional fields a `PATCH /products/product_id` request may carry.
`quantity` IS one of them (`Field(None, ge=0)`); `total_cost` is not (the
schema comments that it is calculated automatically from the recipe).  The
`recipe_lines` member only replaces recipe lines and touches no scalar
column of the product row. -/
structure ProductUpdate where
  name : Option String := none
  description : Option String := none
  primary_color : Option String := none
  secondary_color : Option String := none
  product_subtype_id : Option Nat := none
  status : Option (List String) := none
  is_self_made : Option Bool := none
  difficulty : Option String := none
  quantity : Option Int := none
  alert_quantity : Option Int := none
  image_url : Option String := none
  notes : Option String := none
  deriving Repr, DecidableEq

/-- Embeds the field loop of `update_product` (`backend/app/routers/
products.py` lines 99-105): `for key, value in update_data.items(): if
value is not None: setattr(product, key, value)` over the fields of
`schemas.ProductUpdate` (after popping `recipe_lines`). -/
def applyProductUpdate (product : Product) (u : ProductUpdate) : Product :=
  { product with
    name := u.name.getD product.name,
    description := (u.description.map some).getD product.description,
    primary_color := (u.primary_color.map some).getD product.primary_color,
    secondary_color := (u.secondary_color.map some).getD product.secondary_color,
    product_subtype_id := (u.product_subtype_id.map some).getD product.product_subtype_id,
    status := u.status.getD product.status,
    is_self_made := u.is_self_made.getD product.is_self_made,
    difficulty := u.difficulty.getD product.difficulty,
    quantity := u.quantity.getD product.quantity,
    alert_quantity := u.alert_quantity.getD product.alert_quantity,
    image_url := (u.image_url.map some).getD product.image_url,
    notes := (u.notes.map some).getD product.notes }

/-- Embeds `schemas.SaleResponse` (`backend/app/schemas.py` lines 218-233):
revenue, cost and profit are computed on read, not stored. -/
structure SaleResponse where
  txn_id : Nat
  org_id : Nat
  product_id : Nat
  txn_type : String
  qty : Int
  unit_price_for_sale : ℚ
  unit_cost_at_sale : ℚ
  total_revenue : ℚ
  total_cost : ℚ
  profit : ℚ
  notes : Option String
  deriving Repr, DecidableEq

/-- Embeds `SaleResponse.from_product_transaction` (`backend/app/schemas.py`
lines 235-265): `total_revenue = qty × unit_price_for_sale`, `total_cost =
qty × unit_cost_at_sale`, `profit = total_revenue - total_cost`, all derived
from the stored snapshots when the sale is read. -/
def SaleResponse.from_product_transaction (txn : ProductTransaction) : SaleResponse :=
  let total_revenue := (txn.qty : ℚ) * txn.unit_price_for_sale
  let total_cost := (txn.qty : ℚ) * txn.unit_cost_at_sale
  let profit := total_revenue - total_cost
  { txn_id := txn.txn_id, org_id := txn.org_id, product_id := txn.product_id,
    txn_type := txn.txn_type, qty := txn.qty,
    unit_price_for_sale := txn.unit_price_for_sale,
    unit_cost_at_sale := txn.unit_cost_at_sale,
    total_revenue := total_revenue, total_cost := total_cost, profit := profit,
    notes := txn.notes }

/-- Embeds `schemas.RecipeLineBase`: one submitted line of the bulk recipe
request (`quantity` is declared `gt=0` by pydantic upstream of the
handler). -/
structure RecipeLineBase where
  part_id : Nat
  quantity : ℚ
  deriving Repr, DecidableEq

/-- The (product_id, part_id) key test used by the bulk endpoint's
existence query (`db.query(RecipeLine).filter(product_id ==, part_id ==)`). -/
def lineKeyMatch (product_id : Nat) (part_id : Nat) (l : RecipeLine) : Bool :=
  l.product_id == product_id && l.part_id == part_id

/-- The in-place update applied to an existing matching line
(`existing.quantity = recipe_line.quantity` — quantity only). -/
def upsertUpd (product_id : Nat) (sub : RecipeLineBase) (l : RecipeLine) :
    RecipeLine :=
  if lineKeyMatch product_id sub.part_id l then { l with quantity := sub.quantity }
  else l

/-- One iteration of the loop body of `create_recipe_lines_bulk`
(`backend/app/routers/recipes.py` lines 234-251): if a recipe line with the
same (product_id, part_id) key exists it is updated in place (quantity
only), otherwise a new line is inserted. -/
def upsertRecipeLine (lines : List RecipeLine) (product_id : Nat)
    (sub : RecipeLineBase) (now : Nat) : List RecipeLine :=
  if lines.any (lineKeyMatch product_id sub.part_id) then
    lines.map (upsertUpd product_id sub)
  else
    lines ++ [{ product_id := product_id, part_id := sub.part_id,
                quantity := sub.quantity, created_at := now }]

/-- The loop of `create_recipe_lines_bulk` (`backend/app/routers/recipes.py`
lines 219-251): for each submitted line verify the part exists (404) and
belongs to the product's organization (400) — any failure rolls the whole
transaction back — then upsert by (product_id, part_id) key. -/
def bulkLoop (parts : List Part) (org_id : Nat) (product_id : Nat) (now : Nat) :
    List RecipeLine → List RecipeLineBase → Except InvError (List RecipeLine)
  | lines, [] => .ok lines
  | lines, sub :: rest =>
    match parts.find? (fun p => p.part_id == sub.part_id) with
    | none => .error (.partNotFound sub.part_id)
    | some part =>
      if part.org_id ≠ org_id then .error (.crossTenant sub.part_id)
      else bulkLoop parts org_id product_id now
        (upsertRecipeLine lines product_id sub now) rest

/-- Embeds `create_recipe_lines_bulk` (`backend/app/routers/recipes.py`
lines 205-265): verify the product exists (404), then run the upsert loop;
on any error the transaction is rolled back, leaving the recipe lines
untouched. -/
def create_recipe_lines_bulk (st : AppState) (product_id : Nat)
    (subs : List RecipeLineBase) (now : Nat) : Except InvError AppState :=
  match findProduct st product_id with
  | none => .error .notFound
  | some product =>
    (bulkLoop st.parts product.org_id product_id now st.recipes subs).map
      (fun ls => { st with recipes := ls })

/-- Modelled from the spec (§4.4): `services.update_order_status` is invoked
by the orders router (`PATCH /orders/order_id/status`) but is defined
nowhere under src.  Allowed transitions: the chain created → completed →
shipped → closed, plus canceled from any non-closed state. -/
def allowedTransition (src : String) (dst : String) : Bool :=
  (src == "created" && dst == "completed") ||
  (src == "completed" && dst == "shipped") ||
  (src == "shipped" && dst == "closed") ||
  (dst == "canceled" && src != "closed")

/-- Modelled from the spec (§4.4): a status update applies an allowed
transition and rejects any other pair with an InvalidTransition error
identifying the disallowed pair, leaving the order unchanged. -/
def update_order_status (o : Order) (new_status : String) : Except InvError Order :=
  if allowedTransition o.status new_status then .ok { o with status := new_status }
  else .error (.invalidTransition o.status new_status)

/-- Modelled from the spec (§4.4): the "returned" marker appended to the
order's notes by the return action. -/
def appendReturnedMarker : Option String → String
  | none => "returned"
  | some s => s ++ " returned"

/-- Modelled from the spec (§4.4): `services.return_order` is invoked by the
orders router (`POST /orders/order_id/return`) but is defined nowhere under
src.  Only a shipped order can be returned; the return sets the status to
canceled and appends a "returned" marker to the notes. -/
def return_order (o : Order) : Except InvError Order :=
  if o.status == "shipped" then
    .ok { o with status := "canceled", notes := some (appendReturnedMarker o.notes) }
  else .error .returnNotShipped

/-- One inventory-mutating request, as dispatched by the routers. -/
inductive Op where
  | build (product_id : Nat) (build_qty : Int)
  | adjustPart (part_id : Nat) (txn_type : String) (qty : Int)
      (unit_cost : Option ℚ) (total_cost : Option ℚ) (cost_type : String)
      (notes : Option String)
  | adjustProduct (product_id : Nat) (txn_type : String) (qty : Int)
      (notes : Option String)
  | sale (product_id : Nat) (quantity : Int) (unit_price : ℚ)
      (notes : Option String)
  deriving Repr, DecidableEq

/-- The outcome of one inventory operation. -/
def stepResult (st : AppState) : Op → Except InvError AppState
  | .build pid q => build_product st pid q
  | .adjustPart pid ty q uc tc ct n =>
    (adjust_part_inventory st pid ty q uc tc ct n).map (fun r => r.1)
  | .adjustProduct pid ty q n => adjust_product_inventory st pid ty q n
  | .sale pid q u n => (record_sale st pid q u n).map (fun r => r.1)

/-- Router semantics: each operation runs in one database transaction; a
failure rolls it back, leaving the state exactly as before. -/
def applyOp (st : AppState) (op : Op) : AppState :=
  match stepResult st op with
  | .ok st2 => st2
  | .error _ => st

/-- A sequence of inventory operations against the store. -/
def runOps (st : AppState) (ops : List Op) : AppState :=
  ops.foldl applyOp st

/-- Every part's stock is non-negative (the `parts_stock_check`
constraint). -/
def partsNonneg (st : AppState) : Prop := ∀ p ∈ st.parts, 0 ≤ p.stock

/-- Every product's quantity is non-negative (the `products_quantity_check`
constraint). -/
def productsNonneg (st : AppState) : Prop := ∀ p ∈ st.products, 0 ≤ p.quantity

/-- Primary keys are unique: no two part rows and no two product rows share
an id. -/
def idsUnique (st : AppState) : Prop :=
  (st.parts.map Part.part_id).Nodup ∧ (st.products.map Product.product_id).Nodup

/-- The store invariant: unique primary keys and non-negative stock and
quantity everywhere. -/
def Inv (st : AppState) : Prop :=
  idsUnique st ∧ partsNonneg st ∧ productsNonneg st

instance (st : AppState) : Decidable (partsNonneg st) := by
  unfold partsNonneg; infer_instance

instance (st : AppState) : Decidable (productsNonneg st) := by
  unfold productsNonneg; infer_instance

instance (st : AppState) : Decidable (idsUnique st) := by
  unfold idsUnique; infer_instance

instance (st : AppState) : Decidable (Inv st) := by
  unfold Inv; infer_instance

/-- The functions defined by the module `app.services`
(`backend/app/services.py`), in source order. -/
def servicesDefinedNames : List String :=
  ["create_part", "get_part", "get_parts_by_org", "update_part",
   "create_product", "get_product", "get_products_by_org", "build_product",
   "record_sale", "get_profit_summary", "adjust_product_inventory"]

/-- The classes defined by the module `app.models`
(`backend/app/models.py`), in source order. -/
def modelsDefinedNames : List String :=
  ["User", "Organization", "OrgMembership", "PartType", "PartSubtype",
   "Part", "PartStatusLabel", "ProductStatusLabel", "ProductType",
   "ProductSubtype", "Product", "RecipeLine", "ProductTransaction",
   "PartTransaction", "Platform", "Order", "OrderLine"]

/-- The names `app.services` imports from `app.models`
(`backend/app/services.py` line 8). -/
def servicesModelImports : List String :=
  ["Part", "Product", "InventoryTransaction", "Sale", "RecipeLine"]

/-- An HTTP error response: status code and detail. -/
structure ErrorResponse where
  status_code : Nat
  detail : String
  deriving Repr, DecidableEq

/-- Embeds `schemas.PartInventoryAdjustmentRequest`. -/
structure PartInventoryAdjustmentRequest where
  part_id : Nat
  txn_type : String
  qty : Int
  unit_cost : Option ℚ
  total_cost : Option ℚ
  cost_type : String
  notes : Option String
  deriving Repr, DecidableEq

/-- Embeds the router handler `adjust_part_inventory`
(`backend/app/routers/parts.py` lines 179-216).  The handler first rejects
a body whose part_id differs from the URL (400).  It then calls
`services.adjust_part_inventory` — a function `app.services` does not
define (and the `app.services` module itself cannot even be imported, since
its line 8 imports `InventoryTransaction` and `Sale` from `app.models`,
which defines neither) — so the call raises and is caught by the handler's
`except Exception` clause, producing a 500 response.  No code path reaches
a write: the state is returned unchanged next to the error response. -/
def adjust_part_inventory_route (st : AppState) (url_part_id : Nat)
    (adjustment : PartInventoryAdjustmentRequest) : ErrorResponse × AppState :=
  if adjustment.part_id ≠ url_part_id then
    ({ status_code := 400,
       detail := "Part ID in URL must match part_id in request body" }, st)
  else
    ({ status_code := 500, detail := "Failed to adjust inventory" }, st)

/-- A concrete product row used as a test fixture. -/
def sampleProduct : Product :=
  { product_id := 7, org_id := 2, name := "Blue Bead Bracelet",
    description := none, primary_color := none, secondary_color := none,
    product_subtype_id := none, status := [], is_self_made := true,
    difficulty := "NA", quantity := 10, alert_quantity := 0,
    total_cost := some 4, image_url := none, notes := none }

/-- A store holding just `sampleProduct`. -/
def sampleState : AppState :=
  { parts := [], products := [sampleProduct], recipes := [], partTxns := [],
    productTxns := [], invTxns := [] }

/-- C7 counterexample: a `PATCH /products/7` body carrying only
`quantity = 3` changes the product's quantity from 10 to 3 — a direct field
edit through `schemas.ProductUpdate`, which declares `quantity` as an
updatable field. -/
theorem product_update_sets_quantity_cex :
    (applyProductUpdate sampleProduct { quantity := some 3 }).quantity ≠
      sampleProduct.quantity ∧
    (applyProductUpdate sampleProduct { quantity := some 3 }).quantity = 3 ∧
    sampleProduct.quantity = 10 := by
  refine ⟨by decide, rfl, rfl⟩

/-- C7 amended: `total_cost` is absent from `schemas.ProductUpdate`, so no
`PATCH /products/product_id` request can change it — but `quantity` is an
updatable field of `ProductUpdate` and PATCH does set it directly. -/
theorem product_update_total_cost_frame :
    ∀ (p : Product) (u : ProductUpdate),
      (applyProductUpdate p u).total_cost = p.total_cost := by
  intro p u
  rfl

/-- C6: `app.services` defines no `adjust_part_inventory`, and it imports
`InventoryTransaction` and `Sale` from `app.models`, which defines neither
class; consequently every request to `POST /parts/part_id/inventory` ends
in an error response (400 on a part-id mismatch, otherwise 500 from the
handler's `except Exception` around the failing service call) and the
store is unchanged. -/
theorem part_adjust_endpoint_always_fails :
    ("adjust_part_inventory" ∉ servicesDefinedNames) ∧
    ("InventoryTransaction" ∈ servicesModelImports ∧
      "InventoryTransaction" ∉ modelsDefinedNames) ∧
    ("Sale" ∈ servicesModelImports ∧ "Sale" ∉ modelsDefinedNames) ∧
    ∀ (st : AppState) (url_part_id : Nat)
      (req : PartInventoryAdjustmentRequest),
      (adjust_part_inventory_route st url_part_id req).2 = st ∧
      ((adjust_part_inventory_route st url_part_id req).1.status_code = 400 ∨
        (adjust_part_inventory_route st url_part_id req).1.status_code = 500) := by
  refine ⟨by decide, ⟨by decide, by decide⟩, ⟨by decide, by decide⟩, ?_⟩
  intro st url_part_id req
  unfold adjust_part_inventory_route
  split
  · exact ⟨rfl, Or.inl rfl⟩
  · exact ⟨rfl, Or.inr rfl⟩

/-- C4 (code bug): `services.adjust_product_inventory` validates the
transaction type against `valid_types = ['adjustment', 'purchase']`, so a
request with `txn_type = "loss"` — the very type its own request schema
documents ("Transaction type: 'loss' (decreases inventory)") and the only
non-build, non-sale type the `product_transactions` check constraint
admits — is rejected with the invalid-type ValueError and the store is
unchanged, instead of decreasing the quantity by 5. -/
theorem loss_txn_type_rejected :
    adjust_product_inventory sampleState 7 "loss" 5 none =
      .error .invalidTxnType ∧
    applyOp sampleState (.adjustProduct 7 "loss" 5 none) = sampleState := by
  exact ⟨rfl, rfl⟩

/-- A freshly created order. -/
def sampleOrderCreated : Order :=
  { order_id := 1, org_id := 2, status := "created", total_price := 36,
    notes := none }

/-- The same order once shipped. -/
def sampleOrderShipped : Order :=
  { sampleOrderCreated with status := "shipped" }

/-- C8: the order status machine.  `allowedTransition` holds exactly for
the chain created → completed → shipped → closed and for canceling from any
non-closed state; `update_order_status` applies an allowed transition and
rejects any other pair with InvalidTransition naming the pair (leaving the
order as it was); `return_order` succeeds only from shipped, canceling the
order and appending the "returned" marker to its notes. -/
theorem order_status_machine :
    (∀ s s2 : String, allowedTransition s s2 = true ↔
      ((s = "created" ∧ s2 = "completed") ∨ (s = "completed" ∧ s2 = "shipped") ∨
        (s = "shipped" ∧ s2 = "closed") ∨ (s2 = "canceled" ∧ s ≠ "closed"))) ∧
    (∀ (o : Order) (s2 : String), allowedTransition o.status s2 = false →
      update_order_status o s2 = .error (.invalidTransition o.status s2)) ∧
    (∀ (o : Order) (s2 : String), allowedTransition o.status s2 = true →
      update_order_status o s2 = .ok { o with status := s2 }) ∧
    (∀ o : Order, o.status = "shipped" →
      return_order o =
        .ok { o with status := "canceled",
                     notes := some (appendReturnedMarker o.notes) }) ∧
    (∀ o : Order, o.status ≠ "shipped" → return_order o = .error .returnNotShipped) ∧
    allowedTransition "created" "shipped" = false ∧
    allowedTransition "created" "closed" = false ∧
    allowedTransition "created" "completed" = true ∧
    allowedTransition "completed" "shipped" = true ∧
    allowedTransition "shipped" "closed" = true := by
  refine ⟨?_, ?_, ?_, ?_, ?_, by decide, by decide, by decide, by decide, by decide⟩
  · intro s s2
    simp only [allowedTransition, Bool.or_eq_true, Bool.and_eq_true,
      beq_iff_eq, bne_iff_ne, ne_eq]
    tauto
  · intro o s2 h
    unfold update_order_status
    rw [h]
    rfl
  · intro o s2 h
    unfold update_order_status
    rw [h]
    rfl
  · intro o h
    unfold return_order
    rw [h]
    rfl
  · intro o h
    unfold return_order
    have : (o.status == "shipped") = false := by
      simpa [beq_iff_eq] using h
    rw [this]
    rfl

/-- C8 witness: on concrete orders, the direct jump created → shipped is
rejected with InvalidTransition, created → completed succeeds, and a return
from shipped cancels the order and appends "returned" to the notes. -/
theorem order_status_machine_witness :
    update_order_status sampleOrderCreated "shipped" =
      .error (.invalidTransition "created" "shipped") ∧
    update_order_status sampleOrderCreated "completed" =
      .ok { sampleOrderCreated with status := "completed" } ∧
    return_order sampleOrderShipped =
      .ok { sampleOrderShipped with status := "canceled",
                                      notes := some "returned" } := by
  refine ⟨order_status_machine.2.1 sampleOrderCreated "shipped" (by decide),
    order_status_machine.2.2.1 sampleOrderCreated "completed" (by decide),
    ?_⟩
  have h := order_status_machine.2.2.2.1 sampleOrderShipped rfl
  simpa [appendReturnedMarker, sampleOrderShipped, sampleOrderCreated] using h

/-- Searching by key commutes with mapping a key-preserving function. -/
theorem find?_map_key {α : Type} (key : α → Nat) {f : α → α} {k : Nat}
    (hf : ∀ a, key (f a) = key a) (l : List α) :
    (l.map f).find? (fun a => key a == k) =
      (l.find? (fun a => key a == k)).map f := by
  induction l with
  | nil => rfl
  | cons a t ih =>
    simp only [List.map_cons]
    by_cases h : key a = k
    · rw [List.find?_cons_of_pos _ (by simp [hf, h]),
        List.find?_cons_of_pos _ (by simp [h])]
      rfl
    · rw [List.find?_cons_of_neg _ (by simp [hf, h]),
        List.find?_cons_of_neg _ (by simp [h])]
      exact ih

/-- With unique keys, searching for a member's key finds that member. -/
theorem find?_eq_of_mem_nodup {α : Type} (key : α → Nat) :
    ∀ l : List α, (l.map key).Nodup → ∀ a ∈ l,
      l.find? (fun x => key x == key a) = some a := by
  intro l
  induction l with
  | nil => intro _ a ha; cases ha
  | cons b t ih =>
    intro hnd a ha
    simp only [List.map_cons, List.nodup_cons] at hnd
    rcases List.mem_cons.mp ha with rfl | hat
    · rw [List.find?_cons_of_pos _ (by simp)]
    · have hne : key b ≠ key a := by
        intro he
        exact hnd.1 (he ▸ List.mem_map_of_mem key hat)
      rw [List.find?_cons_of_neg _ (by simp [hne])]
      exact ih hnd.2 a hat

/-- With unique keys, two members with equal keys are equal. -/
theorem eq_of_mem_of_key_eq {α : Type} (key : α → Nat) (l : List α)
    (hnd : (l.map key).Nodup) (a b : α) (ha : a ∈ l) (hb : b ∈ l)
    (hk : key a = key b) : a = b := by
  have h1 := find?_eq_of_mem_nodup key l hnd a ha
  have h2 := find?_eq_of_mem_nodup key l hnd b hb
  rw [hk] at h1
  rw [h1] at h2
  exact Option.some.inj h2

/-- C3: a `purchase` adjustment of q > 0 units at per-unit cost p sets the
part's stock to `stock + q` and its unit cost to the weighted average
`(stock×old_cost + q×p)/(stock+q)` — which, in the guarded zero-stock case,
is p itself — both in the returned response and in the stored part row. -/
theorem purchase_cost_averaging (st : AppState) (part_id : Nat) (part : Part)
    (q : Int) (p : ℚ) (n : Option String)
    (hf : findPart st part_id = some part)
    (hs : 0 ≤ part.stock) (hq : 0 < q) :
    ∃ st2, adjust_part_inventory st part_id "purchase" q (some p) none "unit" n =
        .ok (st2, part.stock + (q : ℚ),
          (part.stock * part.unit_cost + (q : ℚ) * p) / (part.stock + (q : ℚ))) ∧
      findPart st2 part_id = some
        { part with stock := part.stock + (q : ℚ),
                    unit_cost := (part.stock * part.unit_cost + (q : ℚ) * p) /
                      (part.stock + (q : ℚ)) } := by
  have hq0 : ¬ (q ≤ 0) := not_le.mpr hq
  have hqQ : (q : ℚ) ≠ 0 := by
    have : (0 : ℚ) < (q : ℚ) := by exact_mod_cast hq
    exact ne_of_gt this
  have havg : (if part.stock = 0 then p
      else (part.stock * part.unit_cost + (q : ℚ) * p) / (part.stock + (q : ℚ))) =
      (part.stock * part.unit_cost + (q : ℚ) * p) / (part.stock + (q : ℚ)) := by
    split
    case isTrue h0 =>
      rw [h0, zero_mul, zero_add, zero_add, mul_div_cancel_left₀ p hqQ]
    case isFalse _ => rfl
  have hbeq : (part.part_id == part_id) = true := by
    have := List.find?_some hf
    simpa using this
  unfold adjust_part_inventory
  rw [if_neg hq0, hf]
  rw [if_neg (show ¬ ("unit" : String) = "total" by decide)]
  simp only [havg]
  refine ⟨_, rfl, ?_⟩
  unfold findPart at hf ⊢
  rw [find?_map_key Part.part_id
    (by intro a; split <;> rfl) st.parts, hf]
  rw [Option.map_some', if_pos hbeq]

/-- C3 witness: the spec scenario — stock 10 at cost 2.00, purchase of 10
units at 4.00 — yields stock 20 and unit cost 3.00. -/
theorem purchase_cost_averaging_witness :
    ∃ st2, adjust_part_inventory
        { parts := [{ part_id := 1, org_id := 2, stock := 10, unit_cost := 2 }],
          products := [], recipes := [], partTxns := [], productTxns := [],
          invTxns := [] } 1 "purchase" 10 (some 4) none "unit" none =
      .ok (st2, 20, 3) := by
  obtain ⟨st2, h1, -⟩ := purchase_cost_averaging
    { parts := [{ part_id := 1, org_id := 2, stock := 10, unit_cost := 2 }],
      products := [], recipes := [], partTxns := [], productTxns := [],
      invTxns := [] } 1
    { part_id := 1, org_id := 2, stock := 10, unit_cost := 2 }
    10 4 none (by decide) (by decide) (by decide)
  refine ⟨st2, ?_⟩
  rw [h1]
  norm_num

/-- No inventory operation ever removes or rewrites a stored product
transaction: a successful step only prepends new records. -/
theorem stepResult_productTxns_mono (st : AppState) (op : Op) (st2 : AppState)
    (h : stepResult st op = .ok st2) :
    ∀ x ∈ st.productTxns, x ∈ st2.productTxns := by
  intro x hx
  cases op with
  | build pid q =>
    simp only [stepResult, build_product] at h
    repeat' split at h
    all_goals
      first
      | exact Except.noConfusion h
      | (injection h with h2; subst h2;
         first
         | exact hx
         | exact List.mem_cons_of_mem _ hx)
  | adjustPart pid ty q uc tc ct n =>
    simp only [stepResult, adjust_part_inventory] at h
    repeat' split at h
    all_goals simp only [Except.map] at h
    all_goals
      first
      | exact Except.noConfusion h
      | (injection h with h2; subst h2;
         first
         | exact hx
         | exact List.mem_cons_of_mem _ hx)
  | adjustProduct pid ty q n =>
    simp only [stepResult, adjust_product_inventory] at h
    repeat' split at h
    all_goals
      first
      | exact Except.noConfusion h
      | (injection h with h2; subst h2;
         first
         | exact hx
         | exact List.mem_cons_of_mem _ hx)
  | sale pid q u n =>
    simp only [stepResult, record_sale] at h
    repeat' split at h
    all_goals simp only [Except.map] at h
    all_goals
      first
      | exact Except.noConfusion h
      | (injection h with h2; subst h2;
         first
         | exact hx
         | exact List.mem_cons_of_mem _ hx)

/-- Stored product transactions survive any further sequence of inventory
operations. -/
theorem runOps_productTxns_mono (ops : List Op) :
    ∀ (st : AppState) (x : ProductTransaction),
      x ∈ st.productTxns → x ∈ (runOps st ops).productTxns := by
  induction ops with
  | nil => intro st x hx; exact hx
  | cons op rest ih =>
    intro st x hx
    have h1 : x ∈ (applyOp st op).productTxns := by
      unfold applyOp
      cases h : stepResult st op with
      | ok st2 => exact stepResult_productTxns_mono st op st2 h x hx
      | error e => exact hx
    exact ih (applyOp st op) x h1

/-- C5: recording a sale of q units at unit price u against a product whose
`total_cost` is t stores a sale transaction carrying the snapshots
`unit_cost_at_sale = t` and `unit_price_for_sale = u`; the profit computed
when the sale is read equals `q × (u − t)`, derived from the stored
snapshots; and the stored transaction survives (is never rewritten by) any
further sequence of inventory operations. -/
theorem sale_snapshot_profit (st : AppState) (pid : Nat) (product : Product)
    (q : Int) (u t : ℚ) (n : Option String)
    (hf : findProduct st pid = some product)
    (ht : product.total_cost = some t)
    (hq : 0 < q) (hle : q ≤ product.quantity) :
    ∃ st2 txn, record_sale st pid q u n = .ok (st2, txn) ∧
      txn.txn_type = "sale" ∧ txn.qty = q ∧ txn.unit_cost_at_sale = t ∧
      txn.unit_price_for_sale = u ∧
      (SaleResponse.from_product_transaction txn).profit = (q : ℚ) * (u - t) ∧
      ∀ ops, txn ∈ (runOps st2 ops).productTxns := by
  have hq0 : ¬ (q ≤ 0) := not_le.mpr hq
  have hlt : ¬ (product.quantity < q) := not_lt.mpr hle
  simp only [record_sale, hf, if_neg hq0, if_neg hlt]
  refine ⟨_, _, rfl, rfl, rfl, ?_, rfl, ?_, ?_⟩
  · rw [ht, Option.getD_some]
  · show (q : ℚ) * u - (q : ℚ) * (product.total_cost.getD 0) = (q : ℚ) * (u - t)
    rw [ht, Option.getD_some]
    ring
  · intro ops
    exact runOps_productTxns_mono ops _ _ (List.mem_cons_self _ _)

/-- C5 witness: the spec scenario — a product with quantity 10 and
total_cost 4.00, sale of 2 units at 10.00 — records the snapshots 4.00 and
10.00 and reads back a profit of 12.00. -/
theorem sale_snapshot_profit_witness :
    ∃ st2 txn, record_sale sampleState 7 2 10 none = .ok (st2, txn) ∧
      txn.unit_cost_at_sale = 4 ∧ txn.unit_price_for_sale = 10 ∧
      (SaleResponse.from_product_transaction txn).profit = 12 := by
  obtain ⟨st2, txn, h1, _, _, h4, h5, h6, -⟩ :=
    sale_snapshot_profit sampleState 7 sampleProduct 2 10 4 none rfl rfl
      (by decide) (by decide)
  refine ⟨st2, txn, h1, h4, h5, ?_⟩
  rw [h6]
  norm_num

/-- Mapping a key-preserving function leaves the keys unchanged. -/
theorem map_key_eq {α : Type} (key : α → Nat) (f : α → α)
    (hf : ∀ a, key (f a) = key a) (l : List α) :
    (l.map f).map key = l.map key := by
  rw [List.map_map]
  exact List.map_congr_left (fun a _ => hf a)

/-- Row updates that keep the primary key cannot introduce duplicates. -/
theorem nodup_key_map_update {α : Type} (key : α → Nat) (f : α → α)
    (hf : ∀ a, key (f a) = key a) (l : List α)
    (h : (l.map key).Nodup) : ((l.map f).map key).Nodup := by
  rw [map_key_eq key f hf]
  exact h

/-- A successful build preserves the store invariant: the stock check on
every recipe line guarantees no decremented part goes negative, and the
built product's quantity only grows. -/
theorem build_product_inv (st : AppState) (pid : Nat) (bq : Int)
    (st2 : AppState) (hInv : Inv st) (h : build_product st pid bq = .ok st2) :
    Inv st2 := by
  unfold Inv idsUnique partsNonneg productsNonneg at hInv ⊢
  obtain ⟨⟨hndp, hndq⟩, hpn, hqn⟩ := hInv
  simp only [build_product] at h
  split at h
  · exact Except.noConfusion h
  rename_i hbq0
  split at h
  · exact Except.noConfusion h
  rename_i product hfind
  split at h
  · exact Except.noConfusion h
  rename_i hne
  split at h
  · exact Except.noConfusion h
  rename_i hany
  injection h with h2
  subst h2
  have hok : ∀ l ∈ recipeFor st pid,
      ¬ partStock st l.part_id < l.quantity * (bq : ℚ) := by
    intro l hl hlt
    exact hany (List.any_eq_true.mpr ⟨l, hl, by simpa using hlt⟩)
  refine ⟨⟨?_, ?_⟩, ?_, ?_⟩
  · refine nodup_key_map_update Part.part_id _ (fun a => ?_) st.parts hndp
    rfl
  · refine nodup_key_map_update Product.product_id _ (fun a => ?_) st.products hndq
    split <;> rfl
  · intro p2 hp2
    obtain ⟨p, hp, rfl⟩ := List.mem_map.mp hp2
    show 0 ≤ p.stock - requiredQty (recipeFor st pid) bq p.part_id
    cases hfd : (recipeFor st pid).find? (fun l => l.part_id == p.part_id) with
    | none =>
      unfold requiredQty
      rw [hfd, sub_zero]
      exact hpn p hp
    | some l =>
      have hl : l ∈ recipeFor st pid := List.mem_of_find?_eq_some hfd
      have hlid : l.part_id = p.part_id := by
        simpa using List.find?_some hfd
      have hok2 := hok l hl
      have hstock : partStock st l.part_id = p.stock := by
        unfold partStock findPart
        rw [hlid]
        rw [find?_eq_of_mem_nodup Part.part_id st.parts hndp p hp]
        rfl
      rw [hstock] at hok2
      unfold requiredQty
      rw [hfd]
      show 0 ≤ p.stock - l.quantity * (bq : ℚ)
      have := not_lt.mp hok2
      linarith
  · intro p2 hp2
    obtain ⟨p, hp, rfl⟩ := List.mem_map.mp hp2
    show 0 ≤ (if (p.product_id == pid) = true then
      { p with quantity := p.quantity + bq,
               total_cost := some (compute_build_unit_cost st (recipeFor st pid)) }
      else p).quantity
    split
    · show 0 ≤ p.quantity + bq
      have hbq : 0 < bq := by omega
      have := hqn p hp
      omega
    · exact hqn p hp

/-- A successful part adjustment preserves the store invariant: a purchase
only adds stock, and a loss passes the `stock - qty < 0` check first. -/
theorem adjust_part_inventory_inv (st : AppState) (pid : Nat) (ty : String)
    (q : Int) (uc tc : Option ℚ) (ct : String) (n : Option String)
    (r : AppState × ℚ × ℚ) (hInv : Inv st)
    (h : adjust_part_inventory st pid ty q uc tc ct n = .ok r) : Inv r.1 := by
  unfold Inv idsUnique partsNonneg productsNonneg at hInv ⊢
  obtain ⟨⟨hndp, hndq⟩, hpn, hqn⟩ := hInv
  simp only [adjust_part_inventory] at h
  split at h
  · exact Except.noConfusion h
  rename_i hq0
  split at h
  · exact Except.noConfusion h
  rename_i part hfind
  have hpart : part ∈ st.parts := by
    have := List.mem_of_find?_eq_some hfind
    exact this
  have hqQ : (0 : ℚ) ≤ (q : ℚ) := by
    have : (0 : Int) ≤ q := by omega
    exact_mod_cast this
  split at h
  · split at h
    · exact Except.noConfusion h
    rename_i purchase_cost hcost
    injection h with h2
    subst h2
    refine ⟨⟨?_, hndq⟩, ?_, hqn⟩
    · refine nodup_key_map_update Part.part_id _ (fun a => ?_) st.parts hndp
      split <;> rfl
    · intro p2 hp2
      obtain ⟨p, hp, rfl⟩ := List.mem_map.mp hp2
      show 0 ≤ (if (p.part_id == pid) = true then
        { p with stock := part.stock + (q : ℚ),
                 unit_cost := if part.stock = 0 then purchase_cost
                   else (part.stock * part.unit_cost + (q : ℚ) * purchase_cost) /
                     (part.stock + (q : ℚ)) }
        else p).stock
      split
      · show 0 ≤ part.stock + (q : ℚ)
        have := hpn part hpart
        linarith
      · exact hpn p hp
  · split at h
    · split at h
      · exact Except.noConfusion h
      rename_i hneg
      injection h with h2
      subst h2
      refine ⟨⟨?_, hndq⟩, ?_, hqn⟩
      · refine nodup_key_map_update Part.part_id _ (fun a => ?_) st.parts hndp
        split <;> rfl
      · intro p2 hp2
        obtain ⟨p, hp, rfl⟩ := List.mem_map.mp hp2
        show 0 ≤ (if (p.part_id == pid) = true then
          { p with stock := part.stock - (q : ℚ) } else p).stock
        split
        · show 0 ≤ part.stock - (q : ℚ)
          exact not_lt.mp hneg
        · exact hpn p hp
    · exact Except.noConfusion h

/-- A successful product adjustment preserves the store invariant: the
`new_quantity < 0` check rejects any adjustment that would drive the
quantity negative. -/
theorem adjust_product_inventory_inv (st : AppState) (pid : Nat) (ty : String)
    (q : Int) (n : Option String) (st2 : AppState) (hInv : Inv st)
    (h : adjust_product_inventory st pid ty q n = .ok st2) : Inv st2 := by
  unfold Inv idsUnique partsNonneg productsNonneg at hInv ⊢
  obtain ⟨⟨hndp, hndq⟩, hpn, hqn⟩ := hInv
  simp only [adjust_product_inventory] at h
  split at h
  · exact Except.noConfusion h
  split at h
  · exact Except.noConfusion h
  split at h
  · exact Except.noConfusion h
  split at h
  · exact Except.noConfusion h
  rename_i product hfind
  split at h
  · exact Except.noConfusion h
  rename_i hneg
  injection h with h2
  subst h2
  refine ⟨⟨hndp, ?_⟩, hpn, ?_⟩
  · refine nodup_key_map_update Product.product_id _ (fun a => ?_) st.products hndq
    split <;> rfl
  · intro p2 hp2
    obtain ⟨p, hp, rfl⟩ := List.mem_map.mp hp2
    show 0 ≤ (if (p.product_id == pid) = true then
      { p with quantity := product.quantity + q } else p).quantity
    split
    · show 0 ≤ product.quantity + q
      omega
    · exact hqn p hp

/-- A successful sale preserves the store invariant: the quantity check
`product.quantity < quantity` guards the decrement. -/
theorem record_sale_inv (st : AppState) (pid : Nat) (q : Int) (u : ℚ)
    (n : Option String) (r : AppState × ProductTransaction) (hInv : Inv st)
    (h : record_sale st pid q u n = .ok r) : Inv r.1 := by
  unfold Inv idsUnique partsNonneg productsNonneg at hInv ⊢
  obtain ⟨⟨hndp, hndq⟩, hpn, hqn⟩ := hInv
  simp only [record_sale] at h
  split at h
  · exact Except.noConfusion h
  split at h
  · exact Except.noConfusion h
  rename_i product hfind
  split at h
  · exact Except.noConfusion h
  rename_i hlt
  injection h with h2
  subst h2
  refine ⟨⟨hndp, ?_⟩, hpn, ?_⟩
  · refine nodup_key_map_update Product.product_id _ (fun a => ?_) st.products hndq
    split <;> rfl
  · intro p2 hp2
    obtain ⟨p, hp, rfl⟩ := List.mem_map.mp hp2
    show 0 ≤ (if (p.product_id == pid) = true then
      { p with quantity := p.quantity - q } else p).quantity
    split
    · rename_i hc
      show 0 ≤ p.quantity - q
      have hpid : p.product_id = pid := by simpa using hc
      have hfp := find?_eq_of_mem_nodup Product.product_id st.products hndq p hp
      rw [hpid] at hfp
      unfold findProduct at hfind
      rw [hfp] at hfind
      injection hfind with h3
      subst h3
      omega
    · exact hqn p hp

/-- Every single inventory operation preserves the store invariant; a
failed operation leaves the state unchanged. -/
theorem applyOp_inv (st : AppState) (op : Op) (hInv : Inv st) :
    Inv (applyOp st op) := by
  unfold applyOp
  cases op with
  | build pid bq =>
    cases h : stepResult st (Op.build pid bq) with
    | ok st2 =>
      simp only [stepResult] at h
      exact build_product_inv st pid bq st2 hInv h
    | error e => exact hInv
  | adjustPart pid ty q uc tc ct n =>
    cases h : stepResult st (Op.adjustPart pid ty q uc tc ct n) with
    | ok st2 =>
      simp only [stepResult] at h
      cases h2 : adjust_part_inventory st pid ty q uc tc ct n with
      | error e =>
        rw [h2] at h
        exact Except.noConfusion h
      | ok r =>
        rw [h2] at h
        simp only [Except.map] at h
        injection h with h3
        subst h3
        exact adjust_part_inventory_inv st pid ty q uc tc ct n r hInv h2
    | error e => exact hInv
  | adjustProduct pid ty q n =>
    cases h : stepResult st (Op.adjustProduct pid ty q n) with
    | ok st2 =>
      simp only [stepResult] at h
      exact adjust_product_inventory_inv st pid ty q n st2 hInv h
    | error e => exact hInv
  | sale pid q u n =>
    cases h : stepResult st (Op.sale pid q u n) with
    | ok st2 =>
      simp only [stepResult] at h
      cases h2 : record_sale st pid q u n with
      | error e =>
        rw [h2] at h
        exact Except.noConfusion h
      | ok r =>
        rw [h2] at h
        simp only [Except.map] at h
        injection h with h3
        subst h3
        exact record_sale_inv st pid q u n r hInv h2
    | error e => exact hInv

/-- Any sequence of inventory operations preserves the store invariant. -/
theorem runOps_inv (ops : List Op) :
    ∀ st : AppState, Inv st → Inv (runOps st ops) := by
  induction ops with
  | nil => intro st h; exact h
  | cons op rest ih =>
    intro st h
    exact ih (applyOp st op) (applyOp_inv st op h)

/-- C2: starting from a well-formed store, after any sequence of inventory
operations every part's stock and every product's quantity are still
non-negative; and an operation whose result would make a quantity negative
— a product adjustment below zero, an over-drawing sale, or a part loss
exceeding the stock — is rejected with InsufficientInventory and changes
nothing. -/
theorem inventory_nonneg_invariant (st : AppState) (ops : List Op)
    (hInv : Inv st) :
    ((∀ p ∈ (runOps st ops).parts, 0 ≤ p.stock) ∧
      (∀ pr ∈ (runOps st ops).products, 0 ≤ pr.quantity)) ∧
    (∀ (pid : Nat) (q : Int) (n : Option String) (product : Product),
      findProduct st pid = some product → product.quantity + q < 0 →
      adjust_product_inventory st pid "adjustment" q n =
        .error .insufficientInventory ∧
      applyOp st (.adjustProduct pid "adjustment" q n) = st) ∧
    (∀ (pid : Nat) (q : Int) (u : ℚ) (n : Option String) (product : Product),
      findProduct st pid = some product → 0 < q → product.quantity < q →
      record_sale st pid q u n = .error .insufficientInventory ∧
      applyOp st (.sale pid q u n) = st) ∧
    (∀ (pid : Nat) (q : Int) (uc tc : Option ℚ) (ct : String)
      (n : Option String) (part : Part),
      findPart st pid = some part → 0 < q → part.stock - (q : ℚ) < 0 →
      adjust_part_inventory st pid "loss" q uc tc ct n =
        .error .insufficientInventory ∧
      applyOp st (.adjustPart pid "loss" q uc tc ct n) = st) := by
  have hrun := runOps_inv ops st hInv
  unfold Inv idsUnique partsNonneg productsNonneg at hrun hInv
  obtain ⟨-, hpn, hqn⟩ := hInv
  refine ⟨⟨hrun.2.1, hrun.2.2⟩, ?_, ?_, ?_⟩
  · intro pid q n product hf hneg
    have hmem : product ∈ st.products := by
      unfold findProduct at hf
      exact List.mem_of_find?_eq_some hf
    have hq0 : 0 ≤ product.quantity := hqn product hmem
    have herr : adjust_product_inventory st pid "adjustment" q n =
        .error .insufficientInventory := by
      unfold adjust_product_inventory
      rw [if_neg (show ¬ ("adjustment" : String) ∉
        (["adjustment", "purchase"] : List String) by decide)]
      rw [if_neg (show ¬ q = 0 by omega)]
      rw [if_neg (show ¬ (("adjustment" : String) = "purchase" ∧ q ≤ 0) by
        rintro ⟨h1, -⟩; exact absurd h1 (by decide))]
      simp only [hf]
      rw [if_pos hneg]
    refine ⟨herr, ?_⟩
    simp only [applyOp, stepResult]
    rw [herr]
  · intro pid q u n product hf hq hlt
    have herr : record_sale st pid q u n = .error .insufficientInventory := by
      unfold record_sale
      rw [if_neg (not_le.mpr hq)]
      simp only [hf]
      rw [if_pos hlt]
    refine ⟨herr, ?_⟩
    simp only [applyOp, stepResult]
    rw [herr]
    rfl
  · intro pid q uc tc ct n part hf hq hneg
    have herr : adjust_part_inventory st pid "loss" q uc tc ct n =
        .error .insufficientInventory := by
      unfold adjust_part_inventory
      rw [if_neg (not_le.mpr hq)]
      simp only [hf]
      rw [if_neg (show ¬ ("loss" : String) = "purchase" by decide)]
      rw [if_pos trivial]
      rw [if_pos hneg]
    refine ⟨herr, ?_⟩
    simp only [applyOp, stepResult]
    rw [herr]
    rfl

/-- C2 witness: on a concrete well-formed store, an adjustment of −20
against a product holding 10 is rejected with InsufficientInventory and
leaves the store unchanged. -/
theorem inventory_nonneg_invariant_witness :
    adjust_product_inventory sampleState 7 "adjustment" (-20) none =
      .error .insufficientInventory ∧
    applyOp sampleState (.adjustProduct 7 "adjustment" (-20) none) =
      sampleState := by
  exact (inventory_nonneg_invariant sampleState [] (by decide)).2.1
    7 (-20) none sampleProduct rfl (by decide)

/-- C1: whenever a build reaches the stock check (the product exists and
has a recipe) and ANY recipe line requires more than the part's current
stock, the whole operation is rejected with InsufficientInventory, and the
store — every part's stock and the product's quantity — is exactly as it
was before the call. -/
theorem build_insufficient_atomic (st : AppState) (pid : Nat) (bq : Int)
    (product : Product) (line : RecipeLine)
    (hbq : 0 < bq)
    (hf : findProduct st pid = some product)
    (hl : line ∈ recipeFor st pid)
    (hshort : partStock st line.part_id < line.quantity * (bq : ℚ)) :
    build_product st pid bq = .error .insufficientInventory ∧
    applyOp st (.build pid bq) = st := by
  have herr : build_product st pid bq = .error .insufficientInventory := by
    unfold build_product
    rw [if_neg (not_le.mpr hbq)]
    simp only [hf]
    rw [if_neg (show ¬ (recipeFor st pid).isEmpty = true by
      intro he
      rw [List.isEmpty_iff] at he
      rw [he] at hl
      cases hl)]
    rw [if_pos (List.any_eq_true.mpr ⟨line, hl, by simpa using hshort⟩)]
  refine ⟨herr, ?_⟩
  simp only [applyOp, stepResult]
  rw [herr]

/-- C1 witness: the spec scenario — part stock 5, recipe 2×part, build of 3
requires 6 > 5 — fails with InsufficientInventory and the store is
untouched. -/
theorem build_insufficient_atomic_witness :
    build_product
      { parts := [{ part_id := 1, org_id := 2, stock := 5, unit_cost := 2 }],
        products := [sampleProduct], recipes := [⟨7, 1, 2, 0⟩],
        partTxns := [], productTxns := [], invTxns := [] } 7 3 =
      .error .insufficientInventory ∧
    applyOp
      { parts := [{ part_id := 1, org_id := 2, stock := 5, unit_cost := 2 }],
        products := [sampleProduct], recipes := [⟨7, 1, 2, 0⟩],
        partTxns := [], productTxns := [], invTxns := [] } (.build 7 3) =
      { parts := [{ part_id := 1, org_id := 2, stock := 5, unit_cost := 2 }],
        products := [sampleProduct], recipes := [⟨7, 1, 2, 0⟩],
        partTxns := [], productTxns := [], invTxns := [] } := by
  refine build_insufficient_atomic _ 7 3 sampleProduct ⟨7, 1, 2, 0⟩
    (by decide) rfl (by decide) ?_
  show (5 : ℚ) < 2 * ((3 : Int) : ℚ)
  norm_num

/-- Whether an operation is a part purchase (the only operation that adds
purchase transactions or changes a part's unit cost). -/
def isPartPurchase : Op → Bool
  | .adjustPart _ ty _ _ _ _ _ => ty == "purchase"
  | _ => false

/-- Mapping a projection-preserving function leaves the projection column
unchanged. -/
theorem map_proj_eq {α β : Type} (g : α → β) (f : α → α)
    (hf : ∀ a, g (f a) = g a) (l : List α) : (l.map f).map g = l.map g := by
  rw [List.map_map]
  exact List.map_congr_left (fun a _ => hf a)

/-- Two part lists with the same (part_id, unit_cost) columns give the same
unit cost on lookup by id. -/
theorem find?_cost_eq (l1 l2 : List Part)
    (h : l1.map (fun p => (p.part_id, p.unit_cost)) =
      l2.map (fun p => (p.part_id, p.unit_cost))) (pid : Nat) :
    (l1.find? (fun p => p.part_id == pid)).map Part.unit_cost =
      (l2.find? (fun p => p.part_id == pid)).map Part.unit_cost := by
  induction l1 generalizing l2 with
  | nil =>
    cases l2 with
    | nil => rfl
    | cons b t => simp at h
  | cons a t ih =>
    cases l2 with
    | nil => simp at h
    | cons b t2 =>
      simp only [List.map_cons, List.cons.injEq] at h
      obtain ⟨hab, ht⟩ := h
      have hid : a.part_id = b.part_id := congrArg Prod.fst hab
      have hcost : a.unit_cost = b.unit_cost := congrArg Prod.snd hab
      by_cases hc : a.part_id = pid
      · rw [List.find?_cons_of_pos _ (by simp [hc]),
          List.find?_cons_of_pos _ (by simp [← hid, hc])]
        simp [hcost]
      · rw [List.find?_cons_of_neg _ (by simp [hc]),
          List.find?_cons_of_neg _ (by simp [← hid, hc])]
        exact ih t2 ht

/-- A non-purchase operation changes no part's unit cost and no part's
purchase history: builds and losses record only build_product / loss
transactions and touch only stock. -/
theorem applyOp_part_cost_purchases (st : AppState) (op : Op)
    (hop : isPartPurchase op = false) :
    (applyOp st op).parts.map (fun p => (p.part_id, p.unit_cost)) =
      st.parts.map (fun p => (p.part_id, p.unit_cost)) ∧
    ∀ pid, purchaseTxnsFor (applyOp st op) pid = purchaseTxnsFor st pid := by
  unfold applyOp
  cases op with
  | build pid2 bq =>
    cases h : stepResult st (Op.build pid2 bq) with
    | error e => exact ⟨rfl, fun _ => rfl⟩
    | ok st2 =>
      simp only [stepResult, build_product] at h
      split at h
      · exact Except.noConfusion h
      split at h
      · exact Except.noConfusion h
      split at h
      · exact Except.noConfusion h
      split at h
      · exact Except.noConfusion h
      injection h with h2
      subst h2
      refine ⟨?_, ?_⟩
      · refine map_proj_eq _ _ (fun a => ?_) st.parts
        rfl
      intro pid
      show List.filter _
        ((recipeFor st pid2).map (buildPartTxn st st.productTxns.length bq) ++
          st.partTxns) = _
      rw [List.filter_append]
      have hnil : ((recipeFor st pid2).map
          (buildPartTxn st st.productTxns.length bq)).filter
          (fun t => t.part_id == pid && t.txn_type == "purchase") = [] := by
        rw [List.filter_eq_nil_iff]
        intro a ha
        obtain ⟨l, hl, rfl⟩ := List.mem_map.mp ha
        simp [buildPartTxn]
      rw [hnil, List.nil_append]
      rfl
  | adjustPart pid2 ty q uc tc ct n =>
    have hty : ¬ ty = "purchase" := by
      simp only [isPartPurchase] at hop
      simpa using hop
    cases h : stepResult st (Op.adjustPart pid2 ty q uc tc ct n) with
    | error e => exact ⟨rfl, fun _ => rfl⟩
    | ok st2 =>
      simp only [stepResult, adjust_part_inventory] at h
      repeat' split at h
      all_goals simp only [Except.map] at h
      all_goals try exact Except.noConfusion h
      all_goals try exact absurd ‹ty = "purchase"› hty
      injection h with h2
      subst h2
      refine ⟨?_, ?_⟩
      · refine map_proj_eq _ _ (fun a => ?_) st.parts
        split <;> rfl
      · intro pid
        show List.filter _ (_ :: st.partTxns) = _
        rw [List.filter_cons_of_neg (by simp)]
        rfl
  | adjustProduct pid2 ty q n =>
    cases h : stepResult st (Op.adjustProduct pid2 ty q n) with
    | error e => exact ⟨rfl, fun _ => rfl⟩
    | ok st2 =>
      simp only [stepResult, adjust_product_inventory] at h
      repeat' split at h
      all_goals
        first
        | exact Except.noConfusion h
        | (injection h with h2; subst h2; exact ⟨rfl, fun _ => rfl⟩)
  | sale pid2 q u n =>
    cases h : stepResult st (Op.sale pid2 q u n) with
    | error e => exact ⟨rfl, fun _ => rfl⟩
    | ok st2 =>
      simp only [stepResult, record_sale] at h
      repeat' split at h
      all_goals simp only [Except.map] at h
      all_goals
        first
        | exact Except.noConfusion h
        | (injection h with h2; subst h2; exact ⟨rfl, fun _ => rfl⟩)

/-- The FIFO estimate depends only on the part's id, its current unit cost
and its purchase history. -/
theorem compute_fifo_cost_congr (st1 st2 : AppState) (p1 p2 : Part) (q : ℚ)
    (hid : p1.part_id = p2.part_id) (hcost : p1.unit_cost = p2.unit_cost)
    (htx : purchaseTxnsFor st1 p1.part_id = purchaseTxnsFor st2 p2.part_id) :
    compute_fifo_cost st1 p1 q = compute_fifo_cost st2 p2 q := by
  unfold compute_fifo_cost
  rw [htx, hcost]

/-- One non-purchase operation does not change the FIFO cost endpoint's
response. -/
theorem applyOp_fifo_eq (st : AppState) (op : Op) (pid : Nat) (q : ℚ)
    (hop : isPartPurchase op = false) :
    (get_part_fifo_cost (applyOp st op) pid q).map Prod.fst =
      (get_part_fifo_cost st pid q).map Prod.fst := by
  obtain ⟨hparts, htx⟩ := applyOp_part_cost_purchases st op hop
  unfold get_part_fifo_cost
  by_cases hq : q ≤ 0
  · rw [if_pos hq, if_pos hq]
  rw [if_neg hq, if_neg hq]
  have hfind := find?_cost_eq (applyOp st op).parts st.parts hparts pid
  cases h1 : findPart (applyOp st op) pid with
  | none =>
    cases h2 : findPart st pid with
    | none => rfl
    | some p2 =>
      unfold findPart at h1 h2
      rw [h1, h2] at hfind
      simp at hfind
  | some p1 =>
    cases h2 : findPart st pid with
    | none =>
      unfold findPart at h1 h2
      rw [h1, h2] at hfind
      simp at hfind
    | some p2 =>
      have h1b : List.find? (fun p => p.part_id == pid) (applyOp st op).parts =
          some p1 := h1
      have h2b : List.find? (fun p => p.part_id == pid) st.parts = some p2 := h2
      have hbeq1 := List.find?_some h1b
      have hbeq2 := List.find?_some h2b
      have hid1 : p1.part_id = pid := by simpa using hbeq1
      have hid2 : p2.part_id = pid := by simpa using hbeq2
      unfold findPart at h1 h2
      rw [h1, h2] at hfind
      simp only [Option.map_some'] at hfind
      have hcost : p1.unit_cost = p2.unit_cost := Option.some.inj hfind
      simp only [Except.map]
      rw [compute_fifo_cost_congr (applyOp st op) st p1 p2 q
        (hid1.trans hid2.symm) hcost (by rw [hid1, hid2]; exact htx pid)]
      rw [hcost]

/-- A sequence of non-purchase operations does not change the FIFO cost
endpoint's response. -/
theorem runOps_fifo_eq (ops : List Op)
    (hops : ∀ op ∈ ops, isPartPurchase op = false) :
    ∀ (st : AppState) (pid : Nat) (q : ℚ),
      (get_part_fifo_cost (runOps st ops) pid q).map Prod.fst =
        (get_part_fifo_cost st pid q).map Prod.fst := by
  induction ops with
  | nil => intro st pid q; rfl
  | cons op rest ih =>
    intro st pid q
    have h1 := ih (fun o ho => hops o (List.mem_cons_of_mem _ ho))
      (applyOp st op) pid q
    have h2 := applyOp_fifo_eq st op pid q (hops op (List.mem_cons_self _ _))
    exact h1.trans h2

/-- C9: the FIFO cost query mutates no stored state — a successful call
returns the store exactly as it was — and its response is unchanged by any
sequence of inventory operations that contains no part purchase (so two
calls with the same part and quantity, with no intervening purchases,
return the same result). -/
theorem fifo_cost_read_idempotent (st : AppState) (pid : Nat) (q : ℚ)
    (ops : List Op) (hops : ∀ op ∈ ops, isPartPurchase op = false) :
    (∀ r, get_part_fifo_cost st pid q = .ok r → r.2 = st) ∧
    (get_part_fifo_cost (runOps st ops) pid q).map Prod.fst =
      (get_part_fifo_cost st pid q).map Prod.fst := by
  refine ⟨?_, runOps_fifo_eq ops hops st pid q⟩
  intro r hr
  unfold get_part_fifo_cost at hr
  split at hr
  · exact Except.noConfusion hr
  split at hr
  · exact Except.noConfusion hr
  injection hr with h2
  subst h2
  rfl

/-- A store with one part that has one recorded purchase, for the C9
witness. -/
def fifoState : AppState :=
  { parts := [{ part_id := 1, org_id := 2, stock := 10, unit_cost := 2 }],
    products := [], recipes := [],
    partTxns := [{ part_id := 1, txn_type := "purchase", qty := 3,
                   unit_price_for_purchase := 4, product_txn_id := none,
                   notes := none }],
    productTxns := [], invTxns := [] }

/-- C9 witness: after a loss adjustment (not a purchase), the FIFO response
for the same part and quantity is unchanged. -/
theorem fifo_cost_read_idempotent_witness :
    (get_part_fifo_cost
        (runOps fifoState [.adjustPart 1 "loss" 1 none none "unit" none]) 1 4).map
        Prod.fst =
      (get_part_fifo_cost fifoState 1 4).map Prod.fst := by
  exact (fifo_cost_read_idempotent fifoState 1 4
    [.adjustPart 1 "loss" 1 none none "unit" none] (by decide)).2

/-- Lookup of the recipe line with a given (product_id, part_id) key. -/
def lineFind (lines : List RecipeLine) (product_id : Nat) (part_id : Nat) :
    Option RecipeLine :=
  lines.find? (lineKeyMatch product_id part_id)

/-- The quantity of the last submitted line carrying the given part id, if
any: later entries in the request body win, matching the endpoint's
sequential processing. -/
def lastSubQty : List RecipeLineBase → Nat → Option ℚ
  | [], _ => none
  | sub :: rest, x =>
    match lastSubQty rest x with
    | some q => some q
    | none => if sub.part_id == x then some sub.quantity else none

/-- Searching commutes with mapping a predicate-preserving function. -/
theorem find?_map_pred {α : Type} (pred : α → Bool) (f : α → α)
    (hf : ∀ a, pred (f a) = pred a) (l : List α) :
    (l.map f).find? pred = (l.find? pred).map f := by
  induction l with
  | nil => rfl
  | cons a t ih =>
    simp only [List.map_cons]
    by_cases h : pred a = true
    · rw [List.find?_cons_of_pos _ (by rw [hf]; exact h),
        List.find?_cons_of_pos _ h]
      rfl
    · rw [List.find?_cons_of_neg _ (by rw [hf]; exact h),
        List.find?_cons_of_neg _ h]
      exact ih

/-- The in-place update preserves the line's key, for any key queried. -/
theorem upsertUpd_key (product_id : Nat) (sub : RecipeLineBase)
    (pid2 x : Nat) (a : RecipeLine) :
    lineKeyMatch pid2 x (upsertUpd product_id sub a) = lineKeyMatch pid2 x a := by
  unfold upsertUpd lineKeyMatch
  split <;> rfl

/-- Upserting then looking up the submitted key finds the updated (or the
freshly inserted) line: the existing line keeps every other column. -/
theorem upsert_lineFind_self (lines : List RecipeLine) (product_id : Nat)
    (sub : RecipeLineBase) (now : Nat) :
    lineFind (upsertRecipeLine lines product_id sub now) product_id sub.part_id =
      some (match lineFind lines product_id sub.part_id with
            | some l0 => { l0 with quantity := sub.quantity }
            | none => { product_id := product_id, part_id := sub.part_id,
                        quantity := sub.quantity, created_at := now }) := by
  unfold upsertRecipeLine lineFind
  cases hf : lines.find? (lineKeyMatch product_id sub.part_id) with
  | none =>
    have hany : lines.any (lineKeyMatch product_id sub.part_id) = false := by
      rw [List.any_eq_false]
      exact List.find?_eq_none.mp hf
    rw [if_neg (by rw [hany]; exact Bool.false_ne_true)]
    rw [List.find?_append, hf]
    rw [List.find?_cons_of_pos _ (by simp [lineKeyMatch])]
    rfl
  | some l0 =>
    have hany : lines.any (lineKeyMatch product_id sub.part_id) = true :=
      List.any_eq_true.mpr ⟨l0, List.mem_of_find?_eq_some hf, List.find?_some hf⟩
    rw [if_pos hany]
    rw [find?_map_pred (lineKeyMatch product_id sub.part_id)
      (upsertUpd product_id sub) (upsertUpd_key product_id sub product_id sub.part_id)
      lines]
    rw [hf]
    simp only [Option.map_some']
    have hcond := List.find?_some hf
    unfold upsertUpd
    rw [if_pos hcond]

/-- Upserting one key leaves the lookup of every other key unchanged. -/
theorem upsert_lineFind_other (lines : List RecipeLine) (product_id : Nat)
    (sub : RecipeLineBase) (now : Nat) (pid2 x : Nat)
    (hne : ¬ (pid2 = product_id ∧ x = sub.part_id)) :
    lineFind (upsertRecipeLine lines product_id sub now) pid2 x =
      lineFind lines pid2 x := by
  unfold upsertRecipeLine lineFind
  split
  · rw [find?_map_pred (lineKeyMatch pid2 x) (upsertUpd product_id sub)
      (upsertUpd_key product_id sub pid2 x) lines]
    cases hf : lines.find? (lineKeyMatch pid2 x) with
    | none => rfl
    | some a0 =>
      simp only [Option.map_some']
      have hk := List.find?_some hf
      have hkeys : a0.product_id = pid2 ∧ a0.part_id = x := by
        simpa [lineKeyMatch] using hk
      unfold upsertUpd
      rw [if_neg ?hcneg]
      case hcneg =>
        intro hc
        have hc2 : a0.product_id = product_id ∧ a0.part_id = sub.part_id := by
          simpa [lineKeyMatch] using hc
        exact hne ⟨by rw [← hkeys.1]; exact hc2.1, by rw [← hkeys.2]; exact hc2.2⟩
  · rw [List.find?_append]
    have hnew : List.find? (lineKeyMatch pid2 x)
        [{ product_id := product_id, part_id := sub.part_id,
           quantity := sub.quantity, created_at := now }] = none := by
      rw [List.find?_cons_of_neg _ ?hc, List.find?_nil]
      case hc =>
        intro hc
        have hc2 : product_id = pid2 ∧ sub.part_id = x := by
          simpa [lineKeyMatch] using hc
        exact hne ⟨hc2.1.symm, hc2.2.symm⟩
    rw [hnew, Option.or_none]

/-- A line whose key is not the upserted key stays in the list, unchanged. -/
theorem upsert_mem_other (lines : List RecipeLine) (product_id : Nat)
    (sub : RecipeLineBase) (now : Nat) (l : RecipeLine) (hl : l ∈ lines)
    (hne : ¬ (l.product_id = product_id ∧ l.part_id = sub.part_id)) :
    l ∈ upsertRecipeLine lines product_id sub now := by
  unfold upsertRecipeLine
  split
  · have hfix : upsertUpd product_id sub l = l := by
      unfold upsertUpd
      rw [if_neg ?hc]
      case hc =>
        intro hc
        exact hne (by simpa [lineKeyMatch] using hc)
    exact hfix ▸ List.mem_map_of_mem _ hl
  · exact List.mem_append_left _ hl

/-- Unfolding a cons-step of `lastSubQty` that returns none. -/
theorem lastSubQty_cons_none {sub : RecipeLineBase} {rest : List RecipeLineBase}
    {x : Nat} (h : lastSubQty (sub :: rest) x = none) :
    lastSubQty rest x = none ∧ (sub.part_id == x) = false := by
  unfold lastSubQty at h
  cases hr : lastSubQty rest x with
  | some q =>
    rw [hr] at h
    exact absurd h (by simp)
  | none =>
    rw [hr] at h
    refine ⟨rfl, ?_⟩
    by_cases hb : (sub.part_id == x) = true
    · rw [if_pos hb] at h
      exact absurd h (by simp)
    · simpa using hb

/-- Unfolding a cons-step of `lastSubQty` that returns a quantity. -/
theorem lastSubQty_cons_some {sub : RecipeLineBase} {rest : List RecipeLineBase}
    {x : Nat} {q2 : ℚ} (h : lastSubQty (sub :: rest) x = some q2) :
    lastSubQty rest x = some q2 ∨
      (lastSubQty rest x = none ∧ (sub.part_id == x) = true ∧
        sub.quantity = q2) := by
  unfold lastSubQty at h
  cases hr : lastSubQty rest x with
  | some q3 =>
    rw [hr] at h
    left
    exact h
  | none =>
    rw [hr] at h
    right
    by_cases hb : (sub.part_id == x) = true
    · rw [if_pos hb] at h
      exact ⟨rfl, hb, Option.some.inj h⟩
    · rw [if_neg hb] at h
      exact absurd h (by simp)

/-- The loop of the bulk endpoint: when every submitted part exists in the
product's organization, the loop succeeds and the resulting recipe lines
are exactly the upsert of the submitted set — other products' lines and
unsubmitted keys are untouched, a submitted key that existed is updated in
place (quantity only, last occurrence winning), a new key is inserted with
the submitted quantity, and every untouched line is still present. -/
theorem bulkLoop_spec (parts : List Part) (org_id product_id now : Nat) :
    ∀ (subs : List RecipeLineBase) (lines : List RecipeLine),
      (∀ sub ∈ subs,
        (parts.find? (fun p => p.part_id == sub.part_id)).map Part.org_id =
          some org_id) →
      ∃ R, bulkLoop parts org_id product_id now lines subs = .ok R ∧
        (∀ pid2 x, pid2 ≠ product_id →
          lineFind R pid2 x = lineFind lines pid2 x) ∧
        (∀ x, lastSubQty subs x = none →
          lineFind R product_id x = lineFind lines product_id x) ∧
        (∀ x q2, lastSubQty subs x = some q2 →
          lineFind R product_id x =
            some (match lineFind lines product_id x with
                  | some l0 => { l0 with quantity := q2 }
                  | none => { product_id := product_id, part_id := x,
                              quantity := q2, created_at := now })) ∧
        (∀ l ∈ lines, (¬ l.product_id = product_id ∨
            lastSubQty subs l.part_id = none) → l ∈ R) := by
  intro subs
  induction subs with
  | nil =>
    intro lines _
    refine ⟨lines, rfl, fun _ _ _ => rfl, fun _ _ => rfl, ?_, fun l hl _ => hl⟩
    intro x q2 hq
    exact absurd hq (by simp [lastSubQty])
  | cons sub rest ih =>
    intro lines hparts
    have hsub := hparts sub (List.mem_cons_self _ _)
    cases hfp : parts.find? (fun p => p.part_id == sub.part_id) with
    | none =>
      rw [hfp] at hsub
      exact absurd hsub (by simp)
    | some part =>
      rw [hfp] at hsub
      simp only [Option.map_some'] at hsub
      have horg : part.org_id = org_id := Option.some.inj hsub
      obtain ⟨R, hrun, hother, hnone, hsome, hmem⟩ :=
        ih (upsertRecipeLine lines product_id sub now)
          (fun s hs => hparts s (List.mem_cons_of_mem _ hs))
      refine ⟨R, ?_, ?_, ?_, ?_, ?_⟩
      · show bulkLoop parts org_id product_id now lines (sub :: rest) = .ok R
        simp only [bulkLoop, hfp]
        rw [if_neg (fun hne => hne horg)]
        exact hrun
      · intro pid2 x hne
        rw [hother pid2 x hne]
        exact upsert_lineFind_other lines product_id sub now pid2 x
          (fun hc => hne hc.1)
      · intro x hx
        obtain ⟨hrest, hb⟩ := lastSubQty_cons_none hx
        rw [hnone x hrest]
        refine upsert_lineFind_other lines product_id sub now product_id x ?_
        intro hc
        rw [hc.2] at hb
        simp at hb
      · intro x q2 hq
        rcases lastSubQty_cons_some hq with hr | ⟨hr, hb, hqq⟩
        · rw [hsome x q2 hr]
          by_cases hbx : sub.part_id = x
          · rw [← hbx, upsert_lineFind_self lines product_id sub now]
            cases lineFind lines product_id sub.part_id <;> rfl
          · rw [upsert_lineFind_other lines product_id sub now product_id x
              (fun hc => hbx hc.2.symm)]
        · have hbx : sub.part_id = x := by simpa using hb
          rw [hnone x hr, ← hbx, upsert_lineFind_self lines product_id sub now,
            hqq]
      · intro l hl hcond
        rcases hcond with hp | hnone2
        · exact hmem l
            (upsert_mem_other lines product_id sub now l hl (fun hc => hp hc.1))
            (Or.inl hp)
        · obtain ⟨hrest, hb⟩ := lastSubQty_cons_none hnone2
          refine hmem l
            (upsert_mem_other lines product_id sub now l hl ?_)
            (Or.inr hrest)
          intro hc
          rw [hc.2] at hb
          simp at hb

/-- C10: the bulk recipe endpoint, given a product and submitted lines
whose parts all exist in the product's organization, upserts by
(product_id, part_id) key: a submitted key that matches an existing line
updates that line's quantity in place (every other column, including
created_at, preserved; the last occurrence in the request wins), a new key
is inserted, other products' lines and keys absent from the submission are
untouched and remain present, and no part or product row changes. -/
theorem bulk_recipe_upsert (st : AppState) (product_id : Nat)
    (subs : List RecipeLineBase) (now : Nat) (product : Product)
    (hf : findProduct st product_id = some product)
    (hparts : ∀ sub ∈ subs,
      (st.parts.find? (fun p => p.part_id == sub.part_id)).map Part.org_id =
        some product.org_id) :
    ∃ st2, create_recipe_lines_bulk st product_id subs now = .ok st2 ∧
      st2.parts = st.parts ∧ st2.products = st.products ∧
      (∀ pid2 x, pid2 ≠ product_id →
        lineFind st2.recipes pid2 x = lineFind st.recipes pid2 x) ∧
      (∀ x, lastSubQty subs x = none →
        lineFind st2.recipes product_id x = lineFind st.recipes product_id x) ∧
      (∀ x q2, lastSubQty subs x = some q2 →
        lineFind st2.recipes product_id x =
          some (match lineFind st.recipes product_id x with
                | some l0 => { l0 with quantity := q2 }
                | none => { product_id := product_id, part_id := x,
                            quantity := q2, created_at := now })) ∧
      (∀ l ∈ st.recipes, (¬ l.product_id = product_id ∨
          lastSubQty subs l.part_id = none) → l ∈ st2.recipes) := by
  obtain ⟨R, hrun, hother, hnone, hsome, hmem⟩ :=
    bulkLoop_spec st.parts product.org_id product_id now subs st.recipes hparts
  refine ⟨{ st with recipes := R }, ?_, rfl, rfl, hother, hnone, hsome, hmem⟩
  unfold create_recipe_lines_bulk
  simp only [hf]
  rw [hrun]
  rfl

/-- A store with two parts, one product and a one-line recipe, for the C10
witness. -/
def bulkState : AppState :=
  { parts := [{ part_id := 1, org_id := 2, stock := 5, unit_cost := 2 },
              { part_id := 2, org_id := 2, stock := 8, unit_cost := 1 }],
    products := [sampleProduct], recipes := [⟨7, 1, 2, 5⟩],
    partTxns := [], productTxns := [], invTxns := [] }

/-- C10 witness: submitting lines (part 1, qty 3) and (part 2, qty 4) for
product 7 updates the existing (7, 1) line in place — quantity 3, original
created_at 5 kept — and inserts a new (7, 2) line with quantity 4. -/
theorem bulk_recipe_upsert_witness :
    ∃ st2, create_recipe_lines_bulk bulkState 7 [⟨1, 3⟩, ⟨2, 4⟩] 9 = .ok st2 ∧
      lineFind st2.recipes 7 1 = some ⟨7, 1, 3, 5⟩ ∧
      lineFind st2.recipes 7 2 = some ⟨7, 2, 4, 9⟩ := by
  obtain ⟨st2, h1, -, -, -, -, hsome, -⟩ :=
    bulk_recipe_upsert bulkState 7 [⟨1, 3⟩, ⟨2, 4⟩] 9 sampleProduct rfl
      (by decide)
  refine ⟨st2, h1, ?_, ?_⟩
  · exact (hsome 1 3 (by decide)).trans rfl
  · exact (hsome 2 4 (by decide)).trans rfl

end Handcraft
